import Mathlib

/-! ## Cocktail Finder service worker

A shallow embedding of `sw.js`: the request classifier (`isAppShellResource` and the
API-origin test of `handleRequest`), the per-class strategies (`getCachedResponse`,
`handleApiRequest`, `handleOfflineApiResponse`, the network-first tail of `handleRequest`)
and the synthesized fallback responses.

Platform primitives (`URL`, `fetch`, `caches`, `Cache`, `Response`, `JSON.stringify`) are
not code of the worker.  They are modelled as follows.

* A request carries its serialized URL together with the fields that `new URL(request.url)`
  exposes (`origin`, `hostname`, `pathname`).
* The network and the rejections of the store operations are an oracle `Env`.
* `CacheStorage` is an ordered list of named caches; a cache is an ordered list of
  `(request URL, response)` entries.
* Asynchronous functions become functions from the world before the call to a result
  (fulfilled with a response, or rejected with a failure) and the world after it.
-/

namespace CocktailSW

/-! ## Strings -/

/-- Substring test on character lists: `sub` occurs somewhere in the first list. -/
def includesChars : List Char → List Char → Bool
  | [], sub => sub.isEmpty
  | c :: cs, sub => sub.isPrefixOf (c :: cs) || includesChars cs sub

/-- JavaScript `s.includes(sub)`. -/
def includes (s sub : String) : Bool :=
  includesChars s.toList sub.toList

/-- JavaScript `s.startsWith(pre)`. -/
def startsWith (s pre : String) : Bool :=
  pre.toList.isPrefixOf s.toList

/-! ## Data model -/

/-- A response: body, status, status text and headers. -/
structure Response where
  body : String
  status : Nat
  statusText : String
  headers : List (String × String)
deriving DecidableEq, Repr

/-- JavaScript `response.ok`: the status is in the range 200 to 299. -/
def Response.ok (r : Response) : Bool :=
  decide (200 ≤ r.status) && decide (r.status ≤ 299)

/-- Lower-case form of a header name: header names are compared without regard to case. -/
def headerKey (name : String) : String :=
  String.mk (name.toList.map Char.toLower)

/-- JavaScript `response.headers.get(name)`: the value of the first header of that name,
if the response has one. -/
def Response.header (r : Response) (name : String) : Option String :=
  (r.headers.find? (fun h => headerKey h.1 == headerKey name)).map Prod.snd

/-- JavaScript `new Response(body, init)` for a string `body`, with the `status`,
`statusText` and `headers` of `init`; a missing `statusText` is the empty string and
missing `headers` are empty. When `init` names no content type, the response gets the
content type of a string body, `text/plain;charset=UTF-8`. -/
def Response.new (body : String) (status : Nat) (statusText : String)
    (headers : List (String × String)) : Response :=
  ⟨body, status, statusText,
    if headers.any (fun h => headerKey h.1 == "content-type") then headers
    else headers ++ [("content-type", "text/plain;charset=UTF-8")]⟩

/-- A request: `url` is `request.url`; the other fields are those of `new URL(request.url)`. -/
structure Request where
  url : String
  origin : String
  hostname : String
  pathname : String
deriving DecidableEq, Repr

/-- Reasons for which an awaited platform operation rejects. -/
inductive Failure where
  | network
  | cachesOpen
  | cacheMatch
  | cacheKeys
  | cachePut
deriving DecidableEq, Repr

/-- One cache: `(request URL, response snapshot)` entries in insertion order. -/
abbrev Cache := List (String × Response)

/-- The origin's cache storage: named caches in creation order. -/
abbrev CacheStorage := List (String × Cache)

/-- What the worker can observe change: the cache storage and the log of network fetches
(oldest first). -/
structure World where
  caches : CacheStorage
  fetched : List String
deriving DecidableEq, Repr

/-- The environment of one run: the network (`none` when `fetch` rejects) and which store
operations reject. `matchFails` and `putFails` are asked per request URL. -/
structure Env where
  fetch : String → Option Response
  openFails : Bool
  matchFails : String → Bool
  keysFails : Bool
  putFails : String → Bool

/-- Outcome of an asynchronous function: the settled promise and the world afterwards. -/
abbrev Outcome := Except Failure Response × World

/-! ## Store primitives -/

/-- Effect of `caches.open(name)` on the storage: the cache is created empty when absent. -/
def cachesOpen (cs : CacheStorage) (name : String) : CacheStorage :=
  if cs.any (fun p => p.1 == name) then cs else cs ++ [(name, [])]

/-- Entries of the cache called `name` (none when there is no such cache). -/
def cacheOf (cs : CacheStorage) (name : String) : Cache :=
  (cs.lookup name).getD []

/-- Replace the entries of the cache called `name`. -/
def cachesSet (cs : CacheStorage) (name : String) (c : Cache) : CacheStorage :=
  cs.map (fun p => if p.1 == name then (p.1, c) else p)

/-- Result of `cache.match(request)`: the first entry stored under the request URL. -/
def cacheMatch (c : Cache) (url : String) : Option Response :=
  c.lookup url

/-- Result of `cache.keys()`: the stored request URLs in insertion order. -/
def cacheKeys (c : Cache) : List String :=
  c.map Prod.fst

/-- Effect of `cache.put(request, response)`: entries under the same URL are removed and
the new entry is appended. -/
def cachePut (c : Cache) (url : String) (r : Response) : Cache :=
  c.filter (fun e => e.1 != url) ++ [(url, r)]

/-! ## Constants of the worker -/

def CACHE_NAME : String := "cocktail-finder-v3-appshell"

def API_BASE_URL : String := "https://www.thecocktaildb.com"

def APP_SHELL_RESOURCES : List String :=
  [ "/",
    "/index.html",
    "/main.js",
    "/sw.js",
    "/assets/manifest.json",
    "/assets/imagenParaPlaceholder.jpg",
    "https://cdn.jsdelivr.net/npm/@tailwindcss/browser@4" ]

/-- The array `localResources` of `isAppShellResource`. -/
def localResources : List String :=
  ["/", "/index.html", "/main.js", "/sw.js"]

/-- The template literal `basicCSS` of `getCachedResponse`. -/
def basicCSS : String :=
  "\n                    /* TailwindCSS Offline Fallback */\n                    * \x7b box-sizing: border-box; \x7d\n                    body \x7b margin: 0; font-family: system-ui, -apple-system, sans-serif; \x7d\n                    .container \x7b max-width: 1200px; margin: 0 auto; padding: 0 1rem; \x7d\n                    .mx-auto \x7b margin-left: auto; margin-right: auto; \x7d\n                    .px-4 \x7b padding-left: 1rem; padding-right: 1rem; \x7d\n                    .py-6 \x7b padding-top: 1.5rem; padding-bottom: 1.5rem; \x7d\n                    .py-3 \x7b padding-top: 0.75rem; padding-bottom: 0.75rem; \x7d\n                    .py-2 \x7b padding-top: 0.5rem; padding-bottom: 0.5rem; \x7d\n                    .py-8 \x7b padding-top: 2rem; padding-bottom: 2rem; \x7d\n                    .px-2 \x7b padding-left: 0.5rem; padding-right: 0.5rem; \x7d\n                    .p-4 \x7b padding: 1rem; \x7d\n                    .mb-8 \x7b margin-bottom: 2rem; \x7d\n                    .mb-4 \x7b margin-bottom: 1rem; \x7d\n                    .mb-2 \x7b margin-bottom: 0.5rem; \x7d\n                    .mr-2 \x7b margin-right: 0.5rem; \x7d\n                    .mr-3 \x7b margin-right: 0.75rem; \x7d\n                    .mt-2 \x7b margin-top: 0.5rem; \x7d\n                    .text-center \x7b text-align: center; \x7d\n                    .text-3xl \x7b font-size: 1.875rem; line-height: 2.25rem; \x7d\n                    .text-xl \x7b font-size: 1.25rem; line-height: 1.75rem; \x7d\n                    .text-lg \x7b font-size: 1.125rem; line-height: 1.75rem; \x7d\n                    .text-sm \x7b font-size: 0.875rem; line-height: 1.25rem; \x7d\n                    .text-6xl \x7b font-size: 3.75rem; line-height: 1; \x7d\n                    .font-bold \x7b font-weight: 700; \x7d\n                    .font-semibold \x7b font-weight: 600; \x7d\n                    .font-medium \x7b font-weight: 500; \x7d\n                    .text-blue-600 \x7b color: #2563eb; \x7d\n                    .text-blue-800 \x7b color: #1e40af; \x7d\n                    .text-blue-500 \x7b color: #3b82f6; \x7d\n                    .text-gray-600 \x7b color: #4b5563; \x7d\n                    .text-gray-700 \x7b color: #374151; \x7d\n                    .text-gray-800 \x7b color: #1f2937; \x7d\n                    .text-gray-500 \x7b color: #6b7280; \x7d\n                    .text-white \x7b color: #ffffff; \x7d\n                    .text-orange-800 \x7b color: #9a3412; \x7d\n                    .text-orange-600 \x7b color: #ea580c; \x7d\n                    .text-red-800 \x7b color: #991b1b; \x7d\n                    .text-red-600 \x7b color: #dc2626; \x7d\n                    .bg-gray-100 \x7b background-color: #f3f4f6; \x7d\n                    .bg-white \x7b background-color: #ffffff; \x7d\n                    .bg-blue-500 \x7b background-color: #3b82f6; \x7d\n                    .bg-blue-600 \x7b background-color: #2563eb; \x7d\n                    .bg-blue-50 \x7b background-color: #eff6ff; \x7d\n                    .bg-orange-50 \x7b background-color: #fff7ed; \x7d\n                    .bg-red-50 \x7b background-color: #fef2f2; \x7d\n                    .bg-green-500 \x7b background-color: #10b981; \x7d\n                    .bg-red-500 \x7b background-color: #ef4444; \x7d\n                    .min-h-screen \x7b min-height: 100vh; \x7d\n                    .w-full \x7b width: 100%; \x7d\n                    .w-8 \x7b width: 2rem; \x7d\n                    .h-8 \x7b height: 2rem; \x7d\n                    .h-48 \x7b height: 12rem; \x7d\n                    .max-w-md \x7b max-width: 28rem; \x7d\n                    .rounded-lg \x7b border-radius: 0.5rem; \x7d\n                    .rounded-full \x7b border-radius: 9999px; \x7d\n                    .rounded \x7b border-radius: 0.25rem; \x7d\n                    .shadow-md \x7b box-shadow: 0 4px 6px -1px rgba(0, 0, 0, 0.1), 0 2px 4px -1px rgba(0, 0, 0, 0.06); \x7d\n                    .shadow-lg \x7b box-shadow: 0 10px 15px -3px rgba(0, 0, 0, 0.1), 0 4px 6px -2px rgba(0, 0, 0, 0.05); \x7d\n                    .grid \x7b display: grid; \x7d\n                    .gap-4 \x7b gap: 1rem; \x7d\n                    .hidden \x7b display: none; \x7d\n                    .block \x7b display: block; \x7d\n                    .inline-block \x7b display: inline-block; \x7d\n                    .flex \x7b display: flex; \x7d\n                    .items-center \x7b align-items: center; \x7d\n                    .relative \x7b position: relative; \x7d\n                    .absolute \x7b position: absolute; \x7d\n                    .fixed \x7b position: fixed; \x7d\n                    .top-2 \x7b top: 0.5rem; \x7d\n                    .top-4 \x7b top: 1rem; \x7d\n                    .right-2 \x7b right: 0.5rem; \x7d\n                    .left-1\\/2 \x7b left: 50%; \x7d\n                    .transform \x7b transform: var(-\x2dtw-transform); \x7d\n                    .-translate-x-1\\/2 \x7b -\x2dtw-translate-x: -50%; transform: translate(var(-\x2dtw-translate-x), var(-\x2dtw-translate-y)) rotate(var(-\x2dtw-rotate)) skewX(var(-\x2dtw-skew-x)) skewY(var(-\x2dtw-skew-y)) scaleX(var(-\x2dtw-scale-x)) scaleY(var(-\x2dtw-scale-y)); \x7d\n                    .border-2 \x7b border-width: 2px; \x7d\n                    .border-4 \x7b border-width: 4px; \x7d\n                    .border \x7b border-width: 1px; \x7d\n                    .border-gray-200 \x7b border-color: #e5e7eb; \x7d\n                    .border-gray-300 \x7b border-color: #d1d5db; \x7d\n                    .border-blue-200 \x7b border-color: #bfdbfe; \x7d\n                    .border-orange-200 \x7b border-color: #fed7aa; \x7d\n                    .border-red-200 \x7b border-color: #fecaca; \x7d\n                    .border-t-blue-500 \x7b border-top-color: #3b82f6; \x7d\n                    .focus\\:border-blue-500:focus \x7b border-color: #3b82f6; \x7d\n                    .focus\\:outline-none:focus \x7b outline: 2px solid transparent; outline-offset: 2px; \x7d\n                    .hover\\:bg-blue-600:hover \x7b background-color: #2563eb; \x7d\n                    .hover\\:shadow-lg:hover \x7b box-shadow: 0 10px 15px -3px rgba(0, 0, 0, 0.1), 0 4px 6px -2px rgba(0, 0, 0, 0.05); \x7d\n                    .transition-colors \x7b transition-property: color, background-color, border-color, text-decoration-color, fill, stroke; transition-timing-function: cubic-bezier(0.4, 0, 0.2, 1); transition-duration: 150ms; \x7d\n                    .transition-shadow \x7b transition-property: box-shadow; transition-timing-function: cubic-bezier(0.4, 0, 0.2, 1); transition-duration: 150ms; \x7d\n                    .duration-300 \x7b transition-duration: 300ms; \x7d\n                    .overflow-hidden \x7b overflow: hidden; \x7d\n                    .object-cover \x7b object-fit: cover; \x7d\n                    .z-50 \x7b z-index: 50; \x7d\n                    button \x7b cursor: pointer; \x7d\n                "

/-! ## JSON serialization -/

/-- The JSON values the worker serializes: strings, arrays and objects. -/
inductive Json where
  | str (s : String)
  | arr (items : List Json)
  | obj (fields : List (String × Json))

/-- A hexadecimal digit in lower case. -/
def hexDigit (n : Nat) : Char :=
  if n < 10 then Char.ofNat (48 + n) else Char.ofNat (87 + n)

/-- Escape of one character inside a JSON string, as `JSON.stringify` writes it. -/
def escapeChar (c : Char) : List Char :=
  if c = '"' then ['\\', '"']
  else if c = '\\' then ['\\', '\\']
  else if c = '\n' then ['\\', 'n']
  else if c = '\r' then ['\\', 'r']
  else if c = '\t' then ['\\', 't']
  else if c.toNat = 8 then ['\\', 'b']
  else if c.toNat = 12 then ['\\', 'f']
  else if c.toNat < 32 then ['\\', 'u', '0', '0', hexDigit (c.toNat / 16), hexDigit (c.toNat % 16)]
  else [c]

/-- A JSON string literal: the escaped characters between double quotes. -/
def quoteString (s : String) : String :=
  String.mk ('"' :: (s.toList.flatMap escapeChar ++ ['"']))

mutual
/-- JavaScript `JSON.stringify(value)` without indentation. -/
def stringify : Json → String
  | .str s => quoteString s
  | .arr items => "[" ++ stringifyItems items ++ "]"
  | .obj fields => "\x7b" ++ stringifyFields fields ++ "\x7d"
/-- The elements of an array, separated by commas. -/
def stringifyItems : List Json → String
  | [] => ""
  | [v] => stringify v
  | v :: rest => stringify v ++ "," ++ stringifyItems rest
/-- The members of an object, separated by commas. -/
def stringifyFields : List (String × Json) → String
  | [] => ""
  | [(k, v)] => quoteString k ++ ":" ++ stringify v
  | (k, v) :: rest => quoteString k ++ ":" ++ stringify v ++ "," ++ stringifyFields rest
end

/-- The object `offlineData` of `handleOfflineApiResponse`. -/
def offlineData : Json :=
  .obj [("drinks", .arr [.obj [
    ("idDrink", .str "offline-001"),
    ("strDrink", .str "Cóctel Especial (Sin Conexión)"),
    ("strDrinkThumb", .str "/assets/imagenParaPlaceholder.jpg")]])]

/-! ## Synthesized responses -/

/-- The response `new Response('', status 200)` of the shell branch of `handleRequest`. -/
def emptyResponse : Response :=
  Response.new "" 200 "" []

/-- The emergency stylesheet response built in the `catch` of `getCachedResponse`. -/
def cssFallbackResponse : Response :=
  Response.new basicCSS 200 "" [("Content-Type", "text/css"), ("X-Offline-CSS", "true")]

/-- The response of the network-first tail of `handleRequest` when nothing is available. -/
def unavailableResponse : Response :=
  Response.new "Recurso no disponible offline" 503 "" [("Content-Type", "text/plain")]

/-- Asynchronous `handleOfflineApiResponse()`: the synthetic search result. -/
def handleOfflineApiResponse : Response :=
  Response.new (stringify offlineData) 200 "OK"
    [("Content-Type", "application/json"), ("X-Offline-Response", "true")]

/-! ## Classification -/

/-- Function `isAppShellResource(url)`; the argument carries `url` and `new URL(url)`. -/
def isAppShellResource (request : Request) : Bool :=
  if localResources.contains request.pathname then true
  else if startsWith request.pathname "/assets/" then true
  else if request.hostname == "cdn.tailwindcss.com" || includes request.url "tailwindcss.com" then
    true
  else if includes request.hostname "cdn." &&
      (includes request.url "tailwind" || includes request.url "css") then true
  else false

/-- The three resource classes. -/
inductive ResourceClass where
  | ShellAsset
  | DynamicApi
  | ExternalResource
deriving DecidableEq, Repr

/-- The class whose branch `handleRequest` takes: the `isAppShellResource` test first, then
the comparison of the origin with `API_BASE_URL`. -/
def classify (request : Request) : ResourceClass :=
  if isAppShellResource request then .ShellAsset
  else if request.origin = API_BASE_URL then .DynamicApi
  else .ExternalResource

/-! ## Strategies -/

/-- Awaited `fetch(request)`: the call is logged and the network answers or rejects. -/
def fetchRequest (env : Env) (request : Request) (w : World) : Option Response × World :=
  (env.fetch request.url, { w with fetched := w.fetched ++ [request.url] })

/-- The loop over `cache.keys()` in `getCachedResponse`: at the first key containing
`tailwindcss.com` the entry is read with `cache.match(key)` and the loop ends. -/
def scanKeys (env : Env) (cache : Cache) : List String → Except Failure (Option Response)
  | [] => .ok none
  | key :: rest =>
    if includes key "tailwindcss.com" then
      if env.matchFails key then .error .cacheMatch else .ok (cacheMatch cache key)
    else scanKeys env cache rest

/-- The lookup of `getCachedResponse`: the exact match, then, when it misses and the
request URL contains `tailwindcss.com`, the scan of the stored keys. -/
def lookupCached (env : Env) (request : Request) (cache : Cache) :
    Except Failure (Option Response) :=
  if env.matchFails request.url then .error .cacheMatch
  else
    match cacheMatch cache request.url with
    | some cachedResponse => .ok (some cachedResponse)
    | none =>
      if includes request.url "tailwindcss.com" then
        if env.keysFails then .error .cacheKeys
        else scanKeys env cache (cacheKeys cache)
      else .ok none

/-- The `catch (error)` block of `getCachedResponse`: the emergency stylesheet for a URL
containing `tailwindcss.com`, otherwise the error is thrown again. -/
def fetchCatch (request : Request) (error : Failure) : Except Failure Response :=
  if includes request.url "tailwindcss.com" then .ok cssFallbackResponse
  else .error error

/-- Asynchronous `getCachedResponse(request)`. -/
def getCachedResponse (env : Env) (request : Request) (w : World) : Outcome :=
  if env.openFails then (.error .cachesOpen, w)
  else
    let w1 : World := { w with caches := cachesOpen w.caches CACHE_NAME }
    let cache := cacheOf w1.caches CACHE_NAME
    match lookupCached env request cache with
    | .error e => (.error e, w1)
    | .ok (some cachedResponse) => (.ok cachedResponse, w1)
    | .ok none =>
      match fetchRequest env request w1 with
      | (none, w2) => (fetchCatch request .network, w2)
      | (some networkResponse, w2) =>
        if networkResponse.ok then
          if env.putFails request.url then (fetchCatch request .cachePut, w2)
          else
            (.ok networkResponse,
              { w2 with caches :=
                  cachesSet w2.caches CACHE_NAME (cachePut cache request.url networkResponse) })
        else (.ok networkResponse, w2)

/-- Asynchronous `handleApiRequest(request)`: network only. -/
def handleApiRequest (env : Env) (request : Request) (w : World) : Outcome :=
  match fetchRequest env request w with
  | (some networkResponse, w1) => (.ok networkResponse, w1)
  | (none, w1) => (.error .network, w1)

/-- Asynchronous `handleRequest(request, requestUrl)`. -/
def handleRequest (env : Env) (request : Request) (w : World) : Outcome :=
  if isAppShellResource request then
    match getCachedResponse env request w with
    | (.ok response, w1) => (.ok response, w1)
    | (.error _, w1) => (.ok emptyResponse, w1)
  else if request.origin = API_BASE_URL then
    match handleApiRequest env request w with
    | (.ok response, w1) => (.ok response, w1)
    | (.error _, w1) => (.ok handleOfflineApiResponse, w1)
  else
    match fetchRequest env request w with
    | (some response, w1) => (.ok response, w1)
    | (none, w1) =>
      if env.openFails then (.error .cachesOpen, w1)
      else
        let w2 : World := { w1 with caches := cachesOpen w1.caches CACHE_NAME }
        if env.matchFails request.url then (.error .cacheMatch, w2)
        else
          match cacheMatch (cacheOf w2.caches CACHE_NAME) request.url with
          | some cachedResponse => (.ok cachedResponse, w2)
          | none => (.ok unavailableResponse, w2)

/-! ## Lifecycle: install and activate -/

/-- Reasons for which an awaited operation of the install and activate handlers rejects. -/
inductive LifecycleFailure where
  | cachesOpen
  | network
  | badStatus
  | cachePut
  | skipWaiting
  | cachesKeys
  | cachesDelete (cacheName : String)
  | clientsClaim
deriving DecidableEq, Repr

/-- Which operations used only by the lifecycle handlers reject: `self.skipWaiting()`,
`caches.keys()`, `caches.delete(name)` per cache name, and `self.clients.claim()`. -/
structure LifecycleEnv where
  skipWaitingFails : Bool
  cachesKeysFails : Bool
  deleteFails : String → Bool
  claimFails : Bool

/-- The worker's scope: the world, whether the waiting phase was skipped and whether the
open clients were claimed. -/
structure WorkerState where
  world : World
  skippedWaiting : Bool
  claimed : Bool
deriving DecidableEq, Repr

/-- Result of `caches.keys()`: the cache names in creation order. -/
def cachesKeys (cs : CacheStorage) : List String :=
  cs.map Prod.fst

/-- Effect of `caches.delete(cacheName)`: the cache of that name is removed. -/
def cachesDelete (cs : CacheStorage) (cacheName : String) : CacheStorage :=
  cs.filter (fun p => p.1 != cacheName)

/-- The URL a manifest entry denotes for a worker served from `origin`: an absolute path
is appended to the origin, an absolute URL stands for itself. -/
def resolveUrl (origin resource : String) : String :=
  if startsWith resource "/" then origin ++ resource else resource

/-- Awaited `cache.add(resource)`: the resource is fetched; a network failure or a response
that is not `ok` rejects; otherwise the response is put under the resource URL. -/
def cacheAdd (env : Env) (url : String) (cache : Cache) :
    Except LifecycleFailure Unit × Cache :=
  match env.fetch url with
  | none => (.error .network, cache)
  | some response =>
    if response.ok then
      if env.putFails url then (.error .cachePut, cache)
      else (.ok (), cachePut cache url response)
    else (.error .badStatus, cache)

/-- The callbacks mapped over `APP_SHELL_RESOURCES` in the install handler, taken in the
order of the manifest: each `cache.add` sits in its own `try`, whose `catch` only logs. -/
def cacheResources (env : Env) (origin : String) :
    List String → Cache → List String → Cache × List String
  | [], cache, fetched => (cache, fetched)
  | resource :: rest, cache, fetched =>
    match cacheAdd env (resolveUrl origin resource) cache with
    | (.ok _, cache1) =>
      cacheResources env origin rest cache1 (fetched ++ [resolveUrl origin resource])
    | (.error _, cache1) =>
      cacheResources env origin rest cache1 (fetched ++ [resolveUrl origin resource])

/-- The promise chain of the install handler before its `.catch`: `caches.open`, then the
caching of the manifest, then `self.skipWaiting()`. -/
def installChain (env : Env) (lenv : LifecycleEnv) (origin : String) (s : WorkerState) :
    Except LifecycleFailure Unit × WorkerState :=
  if env.openFails then (.error .cachesOpen, s)
  else
    let caches1 := cachesOpen s.world.caches CACHE_NAME
    match cacheResources env origin APP_SHELL_RESOURCES (cacheOf caches1 CACHE_NAME)
        s.world.fetched with
    | (cache, fetched) =>
      let world : World := ⟨cachesSet caches1 CACHE_NAME cache, fetched⟩
      if lenv.skipWaitingFails then (.error .skipWaiting, { s with world := world })
      else (.ok (), { s with world := world, skippedWaiting := true })

/-- The promise given to `event.waitUntil` by the install handler: the chain with its
final `.catch`, which logs the error and resolves. -/
def install (env : Env) (lenv : LifecycleEnv) (origin : String) (s : WorkerState) :
    Except LifecycleFailure Unit × WorkerState :=
  match installChain env lenv origin s with
  | (.ok u, s1) => (.ok u, s1)
  | (.error _, s1) => (.ok (), s1)

/-- The deletions started by the activate handler over `cacheNames`, in order: every name
different from `CACHE_NAME` is deleted; the result carries the first rejection, if any. -/
def deleteOldCaches (lenv : LifecycleEnv) :
    List String → CacheStorage → Option LifecycleFailure × CacheStorage
  | [], cs => (none, cs)
  | cacheName :: rest, cs =>
    if cacheName ≠ CACHE_NAME then
      if lenv.deleteFails cacheName then
        match deleteOldCaches lenv rest cs with
        | (_, cs1) => (some (.cachesDelete cacheName), cs1)
      else deleteOldCaches lenv rest (cachesDelete cs cacheName)
    else deleteOldCaches lenv rest cs

/-- The promise given to `event.waitUntil` by the activate handler: `caches.keys()`, the
deletions under `Promise.all`, then `self.clients.claim()`. -/
def activate (lenv : LifecycleEnv) (s : WorkerState) :
    Except LifecycleFailure Unit × WorkerState :=
  if lenv.cachesKeysFails then (.error .cachesKeys, s)
  else
    match deleteOldCaches lenv (cachesKeys s.world.caches) s.world.caches with
    | (some e, cs) => (.error e, { s with world := { s.world with caches := cs } })
    | (none, cs) =>
      if lenv.claimFails then
        (.error .clientsClaim, { s with world := { s.world with caches := cs } })
      else (.ok (), { s with world := { s.world with caches := cs }, claimed := true })

/-! ## The specification's classifier and the inputs used below -/

/-- Entries of the current-version cache in a world. -/
def currentCache (w : World) : Cache :=
  cacheOf w.caches CACHE_NAME

/-- The shell-asset rules 1 to 3 of the specification: a root application path, the
`/assets/` prefix, or the stylesheet vendor by host equality or by vendor name. -/
def specShellAsset (request : Request) : Prop :=
  request.pathname = "/" ∨ request.pathname = "/index.html" ∨
  request.pathname = "/main.js" ∨ request.pathname = "/sw.js" ∨
  startsWith request.pathname "/assets/" = true ∨
  request.hostname = "cdn.tailwindcss.com" ∨
  includes request.url "tailwindcss.com" = true

instance specShellAssetDecidable (request : Request) : Decidable (specShellAsset request) := by
  unfold specShellAsset
  infer_instance

/-- The five ordered rules of the specification's `classify`. -/
def specClassify (request : Request) : ResourceClass :=
  if specShellAsset request then .ShellAsset
  else if request.origin = "https://www.thecocktaildb.com" then .DynamicApi
  else .ExternalResource

/-- The worker's further shell rule: a host containing `cdn.` with a URL containing
`tailwind` or `css`. -/
def cdnStylesheetRule (request : Request) : Prop :=
  includes request.hostname "cdn." = true ∧
  (includes request.url "tailwind" = true ∨ includes request.url "css" = true)

instance cdnStylesheetRuleDecidable (request : Request) :
    Decidable (cdnStylesheetRule request) := by
  unfold cdnStylesheetRule
  infer_instance

/-- The request for the stylesheet dependency listed last in `APP_SHELL_RESOURCES`. -/
def stylesheetRequest : Request where
  url := "https://cdn.jsdelivr.net/npm/@tailwindcss/browser@4"
  origin := "https://cdn.jsdelivr.net"
  hostname := "cdn.jsdelivr.net"
  pathname := "/npm/@tailwindcss/browser@4"

/-- The field `apiBaseUrl` of `CocktailFinder` in `main.js`. -/
def apiBaseUrl : String := "https://www.thecocktaildb.com/api/json/v1/1/search.php?s="

/-- The request that `CocktailFinder.performSearch` fetches, for the encoded query `q`. -/
def searchRequest (q : String) : Request where
  url := apiBaseUrl ++ q
  origin := "https://www.thecocktaildb.com"
  hostname := "www.thecocktaildb.com"
  pathname := "/api/json/v1/1/search.php"

/-- A world without any cache and without any fetch made. -/
def emptyWorld : World := ⟨[], []⟩

/-- An environment in which the network is unreachable and the store works. -/
def offlineEnv : Env := ⟨fun _ => none, false, fun _ => false, false, fun _ => false⟩

/-- An environment in which the network is unreachable and `caches.open` rejects. -/
def offlineBrokenStoreEnv : Env := ⟨fun _ => none, true, fun _ => false, false, fun _ => false⟩

/-- A request that is neither a shell asset nor an API call. -/
def externalRequest : Request where
  url := "https://example.org/data.json"
  origin := "https://example.org"
  hostname := "example.org"
  pathname := "/data.json"

/-- The request for the main markup document of the application. -/
def indexRequest : Request where
  url := "https://app.example/index.html"
  origin := "https://app.example"
  hostname := "app.example"
  pathname := "/index.html"

/-- A request to the stylesheet vendor's own host. -/
def vendorRequest : Request where
  url := "https://cdn.tailwindcss.com/3.4.1"
  origin := "https://cdn.tailwindcss.com"
  hostname := "cdn.tailwindcss.com"
  pathname := "/3.4.1"

/-- A successful network response. -/
def pageResponse : Response :=
  Response.new "<html></html>" 200 "OK" [("Content-Type", "text/html")]

/-- An environment in which every fetch answers `pageResponse` and `cache.put` rejects. -/
def putRejectsEnv : Env :=
  ⟨fun _ => some pageResponse, false, fun _ => false, false, fun _ => true⟩

/-- An environment in which every fetch answers `pageResponse` and the store works. -/
def onlineEnv : Env :=
  ⟨fun _ => some pageResponse, false, fun _ => false, false, fun _ => false⟩

/-- One of the store operations of the lookup of `getCachedResponse` rejects:
`caches.open`, the exact `cache.match`, `cache.keys()`, or the `cache.match` of the scan. -/
def lookupRejects (env : Env) (request : Request) (w : World) : Prop :=
  env.openFails = true ∨
  env.matchFails request.url = true ∨
  (cacheMatch (currentCache w) request.url = none ∧
    includes request.url "tailwindcss.com" = true ∧
    (env.keysFails = true ∨
      ∃ key, (cacheKeys (currentCache w)).find? (fun k => includes k "tailwindcss.com") = some key ∧
        env.matchFails key = true))

/-- A world whose current-version cache holds `pageResponse` for `externalRequest`. -/
def cachedExternalWorld : World :=
  ⟨[(CACHE_NAME, [("https://example.org/data.json", pageResponse)])], []⟩

/-- The request for the placeholder image of the application. -/
def placeholderRequest : Request where
  url := "https://app.example/assets/imagenParaPlaceholder.jpg"
  origin := "https://app.example"
  hostname := "app.example"
  pathname := "/assets/imagenParaPlaceholder.jpg"

/-- A world whose current-version cache holds `pageResponse` for `indexRequest`. -/
def cachedIndexWorld : World :=
  ⟨[(CACHE_NAME, [("https://app.example/index.html", pageResponse)])], []⟩

/-- A stylesheet stored in the cache. -/
def sheetResponse : Response :=
  Response.new ".flex \x7b display: flex; \x7d" 200 "OK" [("Content-Type", "text/css")]

/-- A world whose current-version cache holds the page and, under another URL of the
stylesheet vendor than the one of `vendorRequest`, a stylesheet. -/
def cachedVendorWorld : World :=
  ⟨[(CACHE_NAME,
      [("https://app.example/index.html", pageResponse),
       ("https://cdn.tailwindcss.com/3.4.0", sheetResponse)])], []⟩

/-- A lifecycle environment in which nothing rejects. -/
def calmLifecycleEnv : LifecycleEnv := ⟨false, false, fun _ => false, false⟩

/-- A worker state with the cache of an older version, created first, and the cache of
the current version. -/
def twoVersionsState : WorkerState :=
  ⟨⟨[("cocktail-finder-v2-appshell", [("https://app.example/index.html", sheetResponse)]),
      (CACHE_NAME, [("https://app.example/index.html", pageResponse)])], []⟩, false, false⟩

/-- A worker state holding the cache of the current version only. -/
def currentVersionState : WorkerState :=
  ⟨⟨[(CACHE_NAME, [("https://app.example/index.html", pageResponse)])], []⟩, false, false⟩

/-- Whether `cache.add` of `url` is accepted: the fetch answers with an `ok` response and
the put does not reject. -/
def addAccepted (env : Env) (url : String) : Bool :=
  match env.fetch url with
  | some response => response.ok && !env.putFails url
  | none => false

/-- A worker state before installation: no cache, nothing fetched. -/
def freshState : WorkerState := ⟨emptyWorld, false, false⟩

/-- An environment in which only the main markup document of `https://app.example` can be
fetched and the store works. -/
def indexOnlyEnv : Env :=
  ⟨fun url => if url = "https://app.example/index.html" then some pageResponse else none,
    false, fun _ => false, false, fun _ => false⟩

/-- The request for the manifest entry `path`, an absolute path, of a worker served from
`origin` on the host `hostname`. -/
def localRequest (origin hostname path : String) : Request where
  url := origin ++ path
  origin := origin
  hostname := hostname
  pathname := path

/-- The requests for the seven entries of `APP_SHELL_RESOURCES`, in manifest order, of a
worker served from `origin` on the host `hostname`. -/
def manifestRequests (origin hostname : String) : List Request :=
  [ localRequest origin hostname "/",
    localRequest origin hostname "/index.html",
    localRequest origin hostname "/main.js",
    localRequest origin hostname "/sw.js",
    localRequest origin hostname "/assets/manifest.json",
    localRequest origin hostname "/assets/imagenParaPlaceholder.jpg",
    stylesheetRequest ]

/-- An environment in which the network is unreachable and `cache.match` rejects. -/
def offlineMatchRejectsEnv : Env :=
  ⟨fun _ => none, false, fun _ => true, false, fun _ => false⟩

/-! ## Classification: theorems -/

theorem isAppShellResource_iff (request : Request) :
    isAppShellResource request = true ↔ specShellAsset request ∨ cdnStylesheetRule request := by
  simp only [isAppShellResource, specShellAsset, cdnStylesheetRule, localResources]
  by_cases h1 : request.pathname = "/" <;> by_cases h2 : request.pathname = "/index.html" <;>
  by_cases h3 : request.pathname = "/main.js" <;> by_cases h4 : request.pathname = "/sw.js" <;>
  by_cases h5 : startsWith request.pathname "/assets/" = true <;>
  by_cases h6 : request.hostname = "cdn.tailwindcss.com" <;>
  by_cases h7 : includes request.url "tailwindcss.com" = true <;>
    simp [h1, h2, h3, h4, h5, h6, h7]

/-- C1 (as stated, refuted): the stylesheet dependency of the manifest is a shell asset for
the worker, through its rule on hosts containing `cdn.`, while the five rules of the
specification make it an external resource. -/
theorem classify_differs_from_spec_rules :
    classify stylesheetRequest = .ShellAsset ∧
    specClassify stylesheetRequest = .ExternalResource := by
  decide

/-- C1 (amended): the class assigned by `handleRequest` is `ShellAsset` when one of the
specification's shell rules holds or the host contains `cdn.` and the URL contains
`tailwind` or `css`; otherwise `DynamicApi` when the origin is the API origin; otherwise
`ExternalResource`. -/
theorem classify_eq_rules_with_cdn (request : Request) :
    classify request =
      if specShellAsset request ∨ cdnStylesheetRule request then ResourceClass.ShellAsset
      else if request.origin = "https://www.thecocktaildb.com" then ResourceClass.DynamicApi
      else ResourceClass.ExternalResource := by
  unfold classify
  by_cases h : isAppShellResource request = true
  · rw [if_pos h, if_pos ((isAppShellResource_iff request).1 h)]
  · rw [if_neg h, if_neg (fun h2 => h ((isAppShellResource_iff request).2 h2))]
    rfl

/-! ## Store primitives: lemmas -/

theorem lookup_cons_same {β : Type} (k : String) (v : β) (es : List (String × β)) :
    List.lookup k ((k, v) :: es) = some v := by
  simp [List.lookup]

theorem lookup_cons_other {β : Type} (k a : String) (v : β) (es : List (String × β))
    (h : k ≠ a) : List.lookup k ((a, v) :: es) = List.lookup k es := by
  have hb : (k == a) = false := by simpa using h
  simp [List.lookup, hb]

theorem any_cons_key {β : Type} (k name : String) (v : β) (es : List (String × β)) :
    ((k, v) :: es).any (fun p => p.1 == name) = ((k == name) || es.any (fun p => p.1 == name)) :=
  rfl

theorem lookup_append_absent {β : Type} (es : List (String × β)) (name other : String) (c : β)
    (h : es.any (fun p => p.1 == name) = false) :
    List.lookup other (es ++ [(name, c)]) =
      if other = name then some c else List.lookup other es := by
  induction es with
  | nil =>
    by_cases ho : other = name
    · subst ho; simp [List.lookup]
    · rw [if_neg ho, List.nil_append, lookup_cons_other other name c [] ho]
  | cons p rest ih =>
    obtain ⟨k, v⟩ := p
    rw [any_cons_key, Bool.or_eq_false_iff] at h
    have hkn : k ≠ name := by simpa using h.1
    rw [List.cons_append]
    by_cases hk : other = k
    · subst hk
      rw [lookup_cons_same, lookup_cons_same, if_neg hkn]
    · rw [lookup_cons_other other k v _ hk, lookup_cons_other other k v _ hk, ih h.2]

theorem lookup_absent {β : Type} (es : List (String × β)) (name : String)
    (h : es.any (fun p => p.1 == name) = false) : List.lookup name es = none := by
  induction es with
  | nil => rfl
  | cons p rest ih =>
    obtain ⟨k, v⟩ := p
    rw [any_cons_key, Bool.or_eq_false_iff] at h
    have hkn : k ≠ name := by simpa using h.1
    rw [lookup_cons_other name k v rest (fun e => hkn e.symm), ih h.2]

theorem cacheOf_cachesOpen (cs : CacheStorage) (name other : String) :
    cacheOf (cachesOpen cs name) other = cacheOf cs other := by
  unfold cachesOpen
  by_cases h : cs.any (fun p => p.1 == name) = true
  · rw [if_pos h]
  · rw [if_neg h]
    have h2 : cs.any (fun p => p.1 == name) = false := Bool.eq_false_iff.2 h
    unfold cacheOf
    rw [lookup_append_absent cs name other [] h2]
    by_cases ho : other = name
    · subst ho
      rw [if_pos rfl, lookup_absent cs other h2]
      rfl
    · rw [if_neg ho]

theorem cachesOpen_any (cs : CacheStorage) (name : String) :
    (cachesOpen cs name).any (fun p => p.1 == name) = true := by
  unfold cachesOpen
  by_cases h : cs.any (fun p => p.1 == name) = true
  · rw [if_pos h]; exact h
  · rw [if_neg h]; simp

theorem cachesSet_cons (k : String) (v : Cache) (rest : CacheStorage) (name : String)
    (c : Cache) :
    cachesSet ((k, v) :: rest) name c =
      (if k = name then (k, c) else (k, v)) :: cachesSet rest name c := by
  by_cases hk : k = name <;> simp [cachesSet, hk]

theorem cacheOf_cachesSet_same (cs : CacheStorage) (name : String) (c : Cache)
    (h : cs.any (fun p => p.1 == name) = true) :
    cacheOf (cachesSet cs name c) name = c := by
  induction cs with
  | nil => simp at h
  | cons p rest ih =>
    obtain ⟨k, v⟩ := p
    rw [cachesSet_cons]
    by_cases hk : k = name
    · subst hk
      rw [if_pos rfl]
      unfold cacheOf
      rw [lookup_cons_same]
      rfl
    · rw [if_neg hk]
      have hrest : rest.any (fun p => p.1 == name) = true := by
        rw [any_cons_key] at h
        have hb : (k == name) = false := by simpa using hk
        simpa [hb] using h
      have := ih hrest
      unfold cacheOf at this ⊢
      rw [lookup_cons_other name k v _ (fun e => hk e.symm)]
      exact this

theorem cacheOf_cachesSet_other (cs : CacheStorage) (name other : String) (c : Cache)
    (h : other ≠ name) :
    cacheOf (cachesSet cs name c) other = cacheOf cs other := by
  induction cs with
  | nil => rfl
  | cons p rest ih =>
    obtain ⟨k, v⟩ := p
    rw [cachesSet_cons]
    unfold cacheOf at ih ⊢
    by_cases hk : k = name
    · subst hk
      rw [if_pos rfl, lookup_cons_other other k c _ h, lookup_cons_other other k v _ h]
      exact ih
    · rw [if_neg hk]
      by_cases ho : other = k
      · subst ho
        rw [lookup_cons_same, lookup_cons_same]
      · rw [lookup_cons_other other k v _ ho, lookup_cons_other other k v _ ho]
        exact ih

theorem cachePut_cons (k : String) (v : Response) (rest : Cache) (url : String)
    (r : Response) :
    cachePut ((k, v) :: rest) url r =
      if k = url then cachePut rest url r else (k, v) :: cachePut rest url r := by
  by_cases hk : k = url <;> simp [cachePut, List.filter_cons, hk]

theorem cacheMatch_cachePut_same (c : Cache) (url : String) (r : Response) :
    cacheMatch (cachePut c url r) url = some r := by
  induction c with
  | nil => simp [cacheMatch, cachePut, List.lookup]
  | cons e rest ih =>
    obtain ⟨k, v⟩ := e
    rw [cachePut_cons]
    by_cases hk : k = url
    · rw [if_pos hk]; exact ih
    · rw [if_neg hk]
      unfold cacheMatch at ih ⊢
      rw [lookup_cons_other url k v _ (fun e => hk e.symm)]
      exact ih

theorem cacheMatch_cachePut_other (c : Cache) (url other : String) (r : Response)
    (h : other ≠ url) :
    cacheMatch (cachePut c url r) other = cacheMatch c other := by
  induction c with
  | nil =>
    unfold cacheMatch cachePut
    rw [List.filter_nil, List.nil_append, lookup_cons_other other url r [] h]
  | cons e rest ih =>
    obtain ⟨k, v⟩ := e
    rw [cachePut_cons]
    unfold cacheMatch at ih ⊢
    by_cases hk : k = url
    · subst hk
      rw [if_pos rfl, lookup_cons_other other k v _ h]
      exact ih
    · rw [if_neg hk]
      by_cases ho : other = k
      · subst ho
        rw [lookup_cons_same, lookup_cons_same]
      · rw [lookup_cons_other other k v _ ho, lookup_cons_other other k v _ ho]
        exact ih

theorem scanKeys_eq (env : Env) (cache : Cache) (keys : List String) :
    scanKeys env cache keys =
      match keys.find? (fun key => includes key "tailwindcss.com") with
      | none => .ok none
      | some key =>
        if env.matchFails key then .error .cacheMatch else .ok (cacheMatch cache key) := by
  induction keys with
  | nil => rfl
  | cons key rest ih =>
    by_cases hk : includes key "tailwindcss.com" = true
    · simp [scanKeys, List.find?, hk]
    · simp [scanKeys, List.find?, hk, ih]

/-! ## Request handling: theorems -/

/-- C2 (failing input): for an external request, when the network is unreachable and
`caches.open` rejects, `handleRequest` rejects with the store failure. -/
theorem handleRequest_external_rejects :
    classify externalRequest = .ExternalResource ∧
    handleRequest offlineBrokenStoreEnv externalRequest emptyWorld =
      (.error .cachesOpen, ⟨[], ["https://example.org/data.json"]⟩) := by
  constructor
  · decide
  · rfl

/-- C3 (failing input): for the shell request of `/index.html` with an empty store, the
fetch answers `pageResponse` with status 200, `cache.put` rejects, and `handleRequest`
returns the empty response in place of the network response. -/
theorem handleRequest_put_failure_drops_response :
    isAppShellResource indexRequest = true ∧
    cacheMatch (currentCache emptyWorld) indexRequest.url = none ∧
    putRejectsEnv.fetch indexRequest.url = some pageResponse ∧
    (handleRequest putRejectsEnv indexRequest emptyWorld).1 = .ok emptyResponse ∧
    emptyResponse ≠ pageResponse := by
  refine ⟨by decide, by decide, rfl, rfl, by decide⟩

/-- C4 (failing input): for the stylesheet dependency of the manifest, with an empty store
and the network unreachable, `handleRequest` returns the empty response: its body is
empty, its content type is that of a plain string and not `text/css`, and it has no
`X-Offline-CSS` marker; the emergency stylesheet response differs in all three. -/
theorem handleRequest_stylesheet_offline_empty :
    stylesheetRequest.url ∈ APP_SHELL_RESOURCES ∧
    (handleRequest offlineEnv stylesheetRequest emptyWorld).1 = .ok emptyResponse ∧
    emptyResponse.status = 200 ∧
    emptyResponse.body = "" ∧
    emptyResponse.header "Content-Type" = some "text/plain;charset=UTF-8" ∧
    emptyResponse.header "Content-Type" ≠ some "text/css" ∧
    emptyResponse.header "X-Offline-CSS" = none ∧
    cssFallbackResponse.header "Content-Type" = some "text/css" ∧
    cssFallbackResponse.header "X-Offline-CSS" = some "true" ∧
    cssFallbackResponse.body = basicCSS ∧
    basicCSS ≠ "" := by
  refine ⟨by decide, rfl, rfl, rfl, by decide, by decide, by decide, by decide, by decide,
    rfl, by decide⟩

theorem classify_shell_iff (request : Request) :
    classify request = .ShellAsset ↔ isAppShellResource request = true := by
  unfold classify
  by_cases h : isAppShellResource request = true
  · simp [h]
  · by_cases h2 : request.origin = API_BASE_URL <;> simp [h, h2]

theorem classify_api_iff (request : Request) :
    classify request = .DynamicApi ↔
      isAppShellResource request = false ∧ request.origin = API_BASE_URL := by
  unfold classify
  by_cases h : isAppShellResource request = true
  · simp [h]
  · by_cases h2 : request.origin = API_BASE_URL <;> simp [h, h2]

theorem classify_external_iff (request : Request) :
    classify request = .ExternalResource ↔
      isAppShellResource request = false ∧ request.origin ≠ API_BASE_URL := by
  unfold classify
  by_cases h : isAppShellResource request = true
  · simp [h]
  · by_cases h2 : request.origin = API_BASE_URL <;> simp [h, h2]

theorem handleRequest_of_shell (env : Env) (request : Request) (w : World)
    (h : isAppShellResource request = true) :
    handleRequest env request w =
      match getCachedResponse env request w with
      | (.ok response, w1) => (.ok response, w1)
      | (.error _, w1) => (.ok emptyResponse, w1) := by
  simp [handleRequest, h]

theorem handleRequest_of_api (env : Env) (request : Request) (w : World)
    (h : isAppShellResource request = false) (ho : request.origin = API_BASE_URL) :
    handleRequest env request w =
      (match env.fetch request.url with
        | some networkResponse => .ok networkResponse
        | none => .ok handleOfflineApiResponse,
       { w with fetched := w.fetched ++ [request.url] }) := by
  cases hf : env.fetch request.url <;>
    simp [handleRequest, handleApiRequest, fetchRequest, h, ho, hf]

theorem handleRequest_of_external (env : Env) (request : Request) (w : World)
    (h : isAppShellResource request = false) (ho : request.origin ≠ API_BASE_URL) :
    handleRequest env request w =
      match env.fetch request.url with
      | some response => (.ok response, { w with fetched := w.fetched ++ [request.url] })
      | none =>
        if env.openFails then
          (.error .cachesOpen, { w with fetched := w.fetched ++ [request.url] })
        else if env.matchFails request.url then
          (.error .cacheMatch,
            ⟨cachesOpen w.caches CACHE_NAME, w.fetched ++ [request.url]⟩)
        else
          (match cacheMatch (currentCache w) request.url with
            | some cachedResponse => .ok cachedResponse
            | none => .ok unavailableResponse,
           ⟨cachesOpen w.caches CACHE_NAME, w.fetched ++ [request.url]⟩) := by
  cases hf : env.fetch request.url with
  | some r => simp [handleRequest, fetchRequest, h, ho, hf]
  | none =>
    cases h1 : env.openFails <;> cases h2 : env.matchFails request.url <;>
      cases h3 : cacheMatch (cacheOf w.caches CACHE_NAME) request.url <;>
      simp [handleRequest, fetchRequest, h, ho, hf, h1, h2, h3, currentCache, cacheOf_cachesOpen]

theorem getCachedResponse_eq (env : Env) (request : Request) (w : World) :
    getCachedResponse env request w =
      if env.openFails then (.error .cachesOpen, w)
      else
        match lookupCached env request (currentCache w) with
        | .error e => (.error e, ⟨cachesOpen w.caches CACHE_NAME, w.fetched⟩)
        | .ok (some cachedResponse) =>
          (.ok cachedResponse, ⟨cachesOpen w.caches CACHE_NAME, w.fetched⟩)
        | .ok none =>
          match env.fetch request.url with
          | none =>
            (fetchCatch request .network,
              ⟨cachesOpen w.caches CACHE_NAME, w.fetched ++ [request.url]⟩)
          | some networkResponse =>
            if networkResponse.ok then
              if env.putFails request.url then
                (fetchCatch request .cachePut,
                  ⟨cachesOpen w.caches CACHE_NAME, w.fetched ++ [request.url]⟩)
              else
                (.ok networkResponse,
                  ⟨cachesSet (cachesOpen w.caches CACHE_NAME) CACHE_NAME
                      (cachePut (currentCache w) request.url networkResponse),
                    w.fetched ++ [request.url]⟩)
            else
              (.ok networkResponse,
                ⟨cachesOpen w.caches CACHE_NAME, w.fetched ++ [request.url]⟩) := by
  unfold getCachedResponse
  cases h1 : env.openFails
  · simp only [Bool.false_eq_true, if_false, cacheOf_cachesOpen, currentCache, fetchRequest]
    rcases hl : lookupCached env request (cacheOf w.caches CACHE_NAME) with e | (_ | r)
    · rfl
    · cases hf : env.fetch request.url <;> rfl
    · rfl
  · simp

/-- C5 (as stated, refuted): the search for `tailwindcss.com` builds a URL of the API origin
that `isAppShellResource` accepts, so `handleRequest` takes the shell branch for it. -/
theorem searchRequest_vendor_name_is_shell :
    (searchRequest "tailwindcss.com").origin = API_BASE_URL ∧
    isAppShellResource (searchRequest "tailwindcss.com") = true ∧
    classify (searchRequest "tailwindcss.com") = .ShellAsset := by
  decide

theorem isAppShellResource_searchRequest (q : String) :
    isAppShellResource (searchRequest q) = includes (searchRequest q).url "tailwindcss.com" := by
  have h1 : localResources.contains "/api/json/v1/1/search.php" = false := by decide
  have h2 : startsWith "/api/json/v1/1/search.php" "/assets/" = false := by decide
  have h3 : ("www.thecocktaildb.com" == "cdn.tailwindcss.com") = false := by decide
  have h4 : includes "www.thecocktaildb.com" "cdn." = false := by decide
  simp only [isAppShellResource, searchRequest, h1, h2, h3, h4]
  cases includes (apiBaseUrl ++ q) "tailwindcss.com" <;> simp

/-- C5 (amended): for every encoded query `q` for which the search URL does not contain
`tailwindcss.com`, `isAppShellResource` is false for the search request, its class is
`DynamicApi`, and `handleRequest` answers it through the network-only API branch,
leaving the cache storage as it was. -/
theorem searchRequest_dynamicApi (env : Env) (w : World) (q : String)
    (h : includes (searchRequest q).url "tailwindcss.com" = false) :
    isAppShellResource (searchRequest q) = false ∧
    classify (searchRequest q) = .DynamicApi ∧
    handleRequest env (searchRequest q) w =
      (match handleApiRequest env (searchRequest q) w with
        | (.ok response, w1) => (.ok response, w1)
        | (.error _, w1) => (.ok handleOfflineApiResponse, w1)) ∧
    (handleRequest env (searchRequest q) w).2.caches = w.caches := by
  have hs : isAppShellResource (searchRequest q) = false := by
    rw [isAppShellResource_searchRequest, h]
  have ho : (searchRequest q).origin = API_BASE_URL := rfl
  refine ⟨hs, (classify_api_iff _).2 ⟨hs, ho⟩, ?_, ?_⟩
  · simp [handleRequest, hs, ho]
  · rw [handleRequest_of_api env _ w hs ho]

theorem searchRequest_dynamicApi_witness :
    includes (searchRequest "margarita").url "tailwindcss.com" = false ∧
    classify (searchRequest "margarita") = .DynamicApi :=
  ⟨by decide, (searchRequest_dynamicApi offlineEnv emptyWorld "margarita" (by decide)).2.1⟩

/-- C6: for a request of class `DynamicApi` and any world, when the fetch rejects
`handleRequest` returns the response with status 200, the header `X-Offline-Response: true`
and the JSON text of a result set of exactly one item as body; when the fetch answers,
that network response is returned unchanged. -/
theorem handleRequest_dynamicApi (env : Env) (request : Request) (w : World)
    (h : classify request = .DynamicApi) :
    (env.fetch request.url = none →
      ∃ response, (handleRequest env request w).1 = .ok response ∧
        response.status = 200 ∧
        response.header "X-Offline-Response" = some "true" ∧
        response.body = "\x7b\"drinks\":[\x7b\"idDrink\":\"offline-001\",\"strDrink\":\"Cóctel Especial (Sin Conexión)\",\"strDrinkThumb\":\"/assets/imagenParaPlaceholder.jpg\"\x7d]\x7d" ∧
        ∃ item, offlineData = .obj [("drinks", .arr [item])]) ∧
    (∀ networkResponse, env.fetch request.url = some networkResponse →
      (handleRequest env request w).1 = .ok networkResponse) := by
  obtain ⟨hs, ho⟩ := (classify_api_iff request).1 h
  rw [handleRequest_of_api env request w hs ho]
  constructor
  · intro hf
    rw [hf]
    exact ⟨handleOfflineApiResponse, rfl, rfl, rfl, by decide, _, rfl⟩
  · intro networkResponse hf
    rw [hf]

theorem handleRequest_dynamicApi_witness :
    classify (searchRequest "margarita") = .DynamicApi ∧
    (handleRequest offlineEnv (searchRequest "margarita") emptyWorld).1 =
      .ok handleOfflineApiResponse ∧
    (handleRequest onlineEnv (searchRequest "margarita") emptyWorld).1 = .ok pageResponse :=
  ⟨by decide, rfl,
    (handleRequest_dynamicApi onlineEnv (searchRequest "margarita") emptyWorld (by decide)).2
      pageResponse rfl⟩

theorem currentCache_getCachedResponse (env : Env) (request : Request) (w : World) :
    currentCache (getCachedResponse env request w).2 = currentCache w ∨
    (env.openFails = false ∧ lookupCached env request (currentCache w) = .ok none ∧
      ∃ networkResponse, env.fetch request.url = some networkResponse ∧
        networkResponse.ok = true ∧ env.putFails request.url = false ∧
        currentCache (getCachedResponse env request w).2 =
          cachePut (currentCache w) request.url networkResponse) := by
  rw [getCachedResponse_eq]
  cases h1 : env.openFails
  · rcases hl : lookupCached env request (currentCache w) with e | (_ | r)
    · left; simp [currentCache, cacheOf_cachesOpen]
    · cases hf : env.fetch request.url with
      | none => left; simp [currentCache, cacheOf_cachesOpen]
      | some networkResponse =>
        cases hok : networkResponse.ok <;> cases hp : env.putFails request.url
        · left; simp [currentCache, cacheOf_cachesOpen, hok]
        · left; simp [currentCache, cacheOf_cachesOpen, hok]
        · right
          refine ⟨rfl, rfl, networkResponse, rfl, hok, rfl, ?_⟩
          simp [currentCache, cacheOf_cachesSet_same, cachesOpen_any, hok, hp]
        · left; simp [currentCache, cacheOf_cachesOpen, hok, hp]
    · left; simp [currentCache, cacheOf_cachesOpen]
  · left; simp

theorem otherCache_getCachedResponse (env : Env) (request : Request) (w : World)
    (name : String) (hn : name ≠ CACHE_NAME) :
    cacheOf (getCachedResponse env request w).2.caches name = cacheOf w.caches name := by
  rw [getCachedResponse_eq]
  cases h1 : env.openFails
  · rcases hl : lookupCached env request (currentCache w) with e | (_ | r)
    · simp [cacheOf_cachesOpen]
    · cases hf : env.fetch request.url with
      | none => simp [cacheOf_cachesOpen]
      | some networkResponse =>
        cases hok : networkResponse.ok <;> cases hp : env.putFails request.url <;>
          simp [cacheOf_cachesOpen, cacheOf_cachesSet_other _ _ _ _ hn, hok, hp]
    · simp [cacheOf_cachesOpen]
  · simp

theorem world_handleRequest_of_shell (env : Env) (request : Request) (w : World)
    (h : isAppShellResource request = true) :
    (handleRequest env request w).2 = (getCachedResponse env request w).2 := by
  rw [handleRequest_of_shell env request w h]
  rcases hg : getCachedResponse env request w with ⟨_ | _, w1⟩ <;> rfl

theorem caches_handleRequest_of_not_shell (env : Env) (request : Request) (w : World)
    (h : isAppShellResource request = false) (name : String) :
    cacheOf (handleRequest env request w).2.caches name = cacheOf w.caches name := by
  by_cases ho : request.origin = API_BASE_URL
  · rw [handleRequest_of_api env request w h ho]
  · rw [handleRequest_of_external env request w h ho]
    cases hf : env.fetch request.url with
    | some r => rfl
    | none =>
      cases h1 : env.openFails <;> cases h2 : env.matchFails request.url <;>
        simp [cacheOf_cachesOpen]

/-- C7 (as stated, refuted): for the shell request of `/index.html` with an empty store,
the lookup misses and the fetch answers with status 200, but `cache.put` rejects: the
store afterwards has no entry for the request and equals the store before. -/
theorem handleRequest_put_rejected_no_entry :
    isAppShellResource indexRequest = true ∧
    lookupCached putRejectsEnv indexRequest (currentCache emptyWorld) = .ok none ∧
    putRejectsEnv.fetch indexRequest.url = some pageResponse ∧
    pageResponse.ok = true ∧
    cacheMatch (currentCache (handleRequest putRejectsEnv indexRequest emptyWorld).2)
      indexRequest.url = none ∧
    currentCache (handleRequest putRejectsEnv indexRequest emptyWorld).2 =
      currentCache emptyWorld := by
  refine ⟨by decide, rfl, rfl, by decide, by decide, by decide⟩

/-- C7 (amended): `handleRequest` changes the current-version store in exactly one
situation: the request is a shell asset, the store opens, the lookup misses, the fetch
answers with a success status and the put is accepted. Then the store afterwards is the
store before with the response put under the request URL: that URL maps to the response
and every other URL maps to what it mapped to before. In every other case, a rejected
`caches.open` or `cache.put` included, the store afterwards equals the store before.
Caches of other names are never changed. -/
theorem handleRequest_store_frame (env : Env) (request : Request) (w : World) :
    (∀ networkResponse,
      isAppShellResource request = true → env.openFails = false →
      lookupCached env request (currentCache w) = .ok none →
      env.fetch request.url = some networkResponse → networkResponse.ok = true →
      env.putFails request.url = false →
        currentCache (handleRequest env request w).2 =
          cachePut (currentCache w) request.url networkResponse ∧
        cacheMatch (currentCache (handleRequest env request w).2) request.url =
          some networkResponse ∧
        ∀ other, other ≠ request.url →
          cacheMatch (currentCache (handleRequest env request w).2) other =
            cacheMatch (currentCache w) other) ∧
    (¬ (isAppShellResource request = true ∧ env.openFails = false ∧
        lookupCached env request (currentCache w) = .ok none ∧
        ∃ networkResponse, env.fetch request.url = some networkResponse ∧
          networkResponse.ok = true ∧ env.putFails request.url = false) →
      currentCache (handleRequest env request w).2 = currentCache w) ∧
    (∀ name, name ≠ CACHE_NAME →
      cacheOf (handleRequest env request w).2.caches name = cacheOf w.caches name) := by
  refine ⟨?_, ?_, ?_⟩
  · intro networkResponse hs ho hl hf hok hp
    have hc : currentCache (handleRequest env request w).2 =
        cachePut (currentCache w) request.url networkResponse := by
      rw [world_handleRequest_of_shell env request w hs, getCachedResponse_eq,
        if_neg (by simp [ho]), hl]
      simp [hf, hok, hp, currentCache, cacheOf_cachesSet_same, cachesOpen_any]
    rw [hc]
    exact ⟨rfl, cacheMatch_cachePut_same _ _ _,
      fun other hne => cacheMatch_cachePut_other _ _ _ _ hne⟩
  · intro hnot
    cases hs : isAppShellResource request
    · exact caches_handleRequest_of_not_shell env request w hs CACHE_NAME
    · rw [world_handleRequest_of_shell env request w hs]
      rcases currentCache_getCachedResponse env request w with h | ⟨ho, hl, r, hf, hok, hp, _⟩
      · exact h
      · exact absurd ⟨hs, ho, hl, r, hf, hok, hp⟩ hnot
  · intro name hn
    cases hs : isAppShellResource request
    · exact caches_handleRequest_of_not_shell env request w hs name
    · rw [world_handleRequest_of_shell env request w hs]
      exact otherCache_getCachedResponse env request w name hn

theorem handleRequest_store_frame_witness :
    currentCache (handleRequest onlineEnv indexRequest emptyWorld).2 =
      [("https://app.example/index.html", pageResponse)] ∧
    currentCache (handleRequest onlineEnv externalRequest emptyWorld).2 = [] ∧
    currentCache (handleRequest putRejectsEnv indexRequest cachedExternalWorld).2 =
      currentCache cachedExternalWorld ∧
    currentCache (handleRequest offlineBrokenStoreEnv indexRequest cachedExternalWorld).2 =
      currentCache cachedExternalWorld :=
  ⟨((handleRequest_store_frame onlineEnv indexRequest emptyWorld).1 pageResponse
      (by decide) rfl rfl rfl (by decide) rfl).1,
   (handleRequest_store_frame onlineEnv externalRequest emptyWorld).2.1
      (fun h => absurd h.1 (by decide)),
   (handleRequest_store_frame putRejectsEnv indexRequest cachedExternalWorld).2.1
      (fun h => by
        obtain ⟨_, _, _, r, _, _, hp⟩ := h
        exact absurd hp (by decide)),
   (handleRequest_store_frame offlineBrokenStoreEnv indexRequest cachedExternalWorld).2.1
      (fun h => absurd h.2.1 (by decide))⟩

/-- C8 (as stated, refuted): for an external request, when the fetch rejects and
`cache.match` rejects, `handleRequest` rejects: it returns neither the entry the store
holds for the request nor, when the store holds none, the response with status 503. -/
theorem handleRequest_external_unreadable_store :
    classify externalRequest = .ExternalResource ∧
    offlineMatchRejectsEnv.fetch externalRequest.url = none ∧
    cacheMatch (currentCache cachedExternalWorld) externalRequest.url = some pageResponse ∧
    (handleRequest offlineMatchRejectsEnv externalRequest cachedExternalWorld).1 =
      .error .cacheMatch ∧
    cacheMatch (currentCache emptyWorld) externalRequest.url = none ∧
    (handleRequest offlineMatchRejectsEnv externalRequest emptyWorld).1 =
      .error .cacheMatch := by
  refine ⟨by decide, rfl, by decide, rfl, by decide, rfl⟩

/-- C8 (amended): for a request of class `ExternalResource`, a network response is
returned unmodified; when the fetch rejects and the store can be read (`caches.open` and
`cache.match` are accepted), the entry stored for the request is returned if there is
one, and otherwise the response has status 503, `Content-Type: text/plain` and the plain
text `Recurso no disponible offline` as body. -/
theorem handleRequest_external (env : Env) (request : Request) (w : World)
    (h : classify request = .ExternalResource) :
    (∀ networkResponse, env.fetch request.url = some networkResponse →
      (handleRequest env request w).1 = .ok networkResponse) ∧
    (env.fetch request.url = none → env.openFails = false →
      env.matchFails request.url = false →
      (∀ cachedResponse, cacheMatch (currentCache w) request.url = some cachedResponse →
        (handleRequest env request w).1 = .ok cachedResponse) ∧
      (cacheMatch (currentCache w) request.url = none →
        ∃ response, (handleRequest env request w).1 = .ok response ∧
          response.status = 503 ∧
          response.header "Content-Type" = some "text/plain" ∧
          response.body = "Recurso no disponible offline")) := by
  obtain ⟨hs, ho⟩ := (classify_external_iff request).1 h
  rw [handleRequest_of_external env request w hs ho]
  refine ⟨?_, ?_⟩
  · intro networkResponse hf
    rw [hf]
  · intro hf h1 h2
    rw [hf, h1, h2]
    refine ⟨?_, ?_⟩
    · intro cachedResponse hc
      rw [hc]
      rfl
    · intro hc
      rw [hc]
      exact ⟨unavailableResponse, rfl, rfl, rfl, rfl⟩

theorem handleRequest_external_witness :
    classify externalRequest = .ExternalResource ∧
    (handleRequest onlineEnv externalRequest emptyWorld).1 = .ok pageResponse ∧
    (handleRequest offlineEnv externalRequest cachedExternalWorld).1 = .ok pageResponse ∧
    (∃ response, (handleRequest offlineEnv externalRequest emptyWorld).1 = .ok response ∧
      response.status = 503 ∧
      response.header "Content-Type" = some "text/plain" ∧
      response.body = "Recurso no disponible offline") :=
  ⟨by decide,
   (handleRequest_external onlineEnv externalRequest emptyWorld (by decide)).1 pageResponse rfl,
   ((handleRequest_external offlineEnv externalRequest cachedExternalWorld (by decide)).2
      rfl rfl rfl).1 pageResponse (by decide),
   ((handleRequest_external offlineEnv externalRequest emptyWorld (by decide)).2
      rfl rfl rfl).2 (by decide)⟩

theorem lookupCached_of_miss (env : Env) (request : Request) (cache : Cache)
    (hv : includes request.url "tailwindcss.com" = false)
    (hm : cacheMatch cache request.url = none) :
    lookupCached env request cache = .ok none ∨
    lookupCached env request cache = .error .cacheMatch := by
  unfold lookupCached
  cases h : env.matchFails request.url
  · left; simp [hm, hv]
  · right; simp

/-- C9: for a shell-asset request whose URL does not contain `tailwindcss.com`, when the
store has no entry for it and the fetch rejects, `handleRequest` returns the response
with status 200 and an empty body, whichever store operations reject. -/
theorem handleRequest_shell_miss_offline (env : Env) (request : Request) (w : World)
    (hs : isAppShellResource request = true)
    (hv : includes request.url "tailwindcss.com" = false)
    (hm : cacheMatch (currentCache w) request.url = none)
    (hf : env.fetch request.url = none) :
    ∃ response, (handleRequest env request w).1 = .ok response ∧
      response.status = 200 ∧ response.body = "" := by
  refine ⟨emptyResponse, ?_, rfl, rfl⟩
  rw [handleRequest_of_shell env request w hs, getCachedResponse_eq]
  cases h1 : env.openFails
  · rcases lookupCached_of_miss env request (currentCache w) hv hm with hl | hl
    · simp [hl, hf, fetchCatch, hv]
    · simp [hl]
  · simp

theorem handleRequest_shell_miss_offline_witness :
    isAppShellResource placeholderRequest = true ∧
    ∃ response, (handleRequest offlineEnv placeholderRequest emptyWorld).1 = .ok response ∧
      response.status = 200 ∧ response.body = "" :=
  ⟨by decide,
   handleRequest_shell_miss_offline offlineEnv placeholderRequest emptyWorld
     (by decide) (by decide) (by decide) rfl⟩

/-- C10 (as stated, refuted): for the shell request to the stylesheet vendor with an empty
store, the fetch answers with status 200, `cache.put` rejects, and `handleRequest` returns
the emergency stylesheet, not the empty response. -/
theorem handleRequest_vendor_put_failure_stylesheet :
    isAppShellResource vendorRequest = true ∧
    putRejectsEnv.fetch vendorRequest.url = some pageResponse ∧
    pageResponse.ok = true ∧
    putRejectsEnv.putFails vendorRequest.url = true ∧
    (handleRequest putRejectsEnv vendorRequest emptyWorld).1 = .ok cssFallbackResponse ∧
    cssFallbackResponse ≠ emptyResponse ∧
    cssFallbackResponse.body ≠ "" := by
  refine ⟨by decide, rfl, by decide, rfl, rfl, by decide, by decide⟩

theorem lookupCached_of_rejects (env : Env) (request : Request) (w : World)
    (ho : env.openFails = false) (hr : lookupRejects env request w) :
    ∃ e, lookupCached env request (currentCache w) = .error e := by
  unfold lookupCached
  rcases hr with h | h | ⟨hm, hv, h⟩
  · rw [ho] at h; cases h
  · exact ⟨.cacheMatch, by simp [h]⟩
  · cases h2 : env.matchFails request.url
    · rcases h with h | ⟨key, hk, hkf⟩
      · exact ⟨.cacheKeys, by simp [hm, hv, h]⟩
      · cases h3 : env.keysFails
        · exact ⟨.cacheMatch, by simp [hm, hv, scanKeys_eq, hk, hkf]⟩
        · exact ⟨.cacheKeys, by simp [hm, hv]⟩
    · exact ⟨.cacheMatch, by simp⟩

/-- C10 (amended): a shell-asset request never makes `handleRequest` raise, and when a
store operation of the lookup rejects (opening the store, the exact-match lookup,
enumerating the keys, or reading the entry found by the scan) `handleRequest` returns the
empty success response, with status 200 and an empty body. -/
theorem handleRequest_shell_lookup_failure (env : Env) (request : Request) (w : World)
    (hs : isAppShellResource request = true) :
    (∃ response, (handleRequest env request w).1 = .ok response) ∧
    (lookupRejects env request w →
      (handleRequest env request w).1 = .ok emptyResponse ∧
      emptyResponse.status = 200 ∧ emptyResponse.body = "") := by
  rw [handleRequest_of_shell env request w hs]
  constructor
  · rcases getCachedResponse env request w with ⟨_ | r, w1⟩
    · exact ⟨emptyResponse, rfl⟩
    · exact ⟨r, rfl⟩
  · intro hr
    refine ⟨?_, rfl, rfl⟩
    rw [getCachedResponse_eq]
    cases ho : env.openFails
    · obtain ⟨e, he⟩ := lookupCached_of_rejects env request w ho hr
      simp [he]
    · simp

theorem handleRequest_shell_lookup_failure_witness :
    isAppShellResource vendorRequest = true ∧
    lookupRejects offlineBrokenStoreEnv vendorRequest emptyWorld ∧
    (handleRequest offlineBrokenStoreEnv vendorRequest emptyWorld).1 = .ok emptyResponse :=
  ⟨by decide, Or.inl rfl,
   ((handleRequest_shell_lookup_failure offlineBrokenStoreEnv vendorRequest emptyWorld
      (by decide)).2 (Or.inl rfl)).1⟩

/-! ## When `handleRequest` rejects, and when the network response survives -/

theorem handleRequest_rejects_iff (env : Env) (request : Request) (w : World) :
    (∃ e, (handleRequest env request w).1 = .error e) ↔
      classify request = .ExternalResource ∧ env.fetch request.url = none ∧
        (env.openFails = true ∨ env.matchFails request.url = true) := by
  cases hs : isAppShellResource request
  · by_cases ho : request.origin = API_BASE_URL
    · have hc : classify request ≠ .ExternalResource := by
        rw [(classify_api_iff request).2 ⟨hs, ho⟩]; decide
      rw [handleRequest_of_api env request w hs ho]
      cases hf : env.fetch request.url <;> simp [hc]
    · have hc : classify request = .ExternalResource :=
        (classify_external_iff request).2 ⟨hs, ho⟩
      rw [handleRequest_of_external env request w hs ho]
      cases hf : env.fetch request.url with
      | some r => simp
      | none =>
        cases h1 : env.openFails <;> cases h2 : env.matchFails request.url <;>
          cases h3 : cacheMatch (currentCache w) request.url <;> simp [hc]
  · have hc : classify request ≠ .ExternalResource := by
      rw [(classify_shell_iff request).2 hs]; decide
    rw [handleRequest_of_shell env request w hs]
    rcases getCachedResponse env request w with ⟨_ | r, w1⟩ <;> simp [hc]

theorem handleRequest_shell_fetch_stored (env : Env) (request : Request) (w : World)
    (hs : isAppShellResource request = true) (ho : env.openFails = false)
    (hl : lookupCached env request (currentCache w) = .ok none)
    (networkResponse : Response) (hf : env.fetch request.url = some networkResponse)
    (hp : networkResponse.ok = true → env.putFails request.url = false) :
    (handleRequest env request w).1 = .ok networkResponse := by
  rw [handleRequest_of_shell env request w hs, getCachedResponse_eq,
    if_neg (by simp [ho]), hl]
  cases hok : networkResponse.ok
  · simp [hf, hok]
  · simp [hf, hok, hp hok]

/-! ## Cache hits -/

theorem cachesOpen_of_lookup {cs : CacheStorage} {name : String} {c : Cache}
    (h : List.lookup name cs = some c) : cachesOpen cs name = cs := by
  unfold cachesOpen
  by_cases ha : cs.any (fun p => p.1 == name) = true
  · rw [if_pos ha]
  · rw [lookup_absent cs name (Bool.eq_false_iff.2 ha)] at h
    cases h

theorem cachesOpen_of_nonempty {cs : CacheStorage} {name : String}
    (h : cacheOf cs name ≠ []) : cachesOpen cs name = cs := by
  unfold cacheOf at h
  cases hl : List.lookup name cs with
  | none => rw [hl] at h; exact absurd rfl h
  | some c => exact cachesOpen_of_lookup hl

theorem cacheMatch_of_mem_keys (c : Cache) (key : String) (h : key ∈ cacheKeys c) :
    ∃ r, cacheMatch c key = some r := by
  induction c with
  | nil => simp [cacheKeys] at h
  | cons e rest ih =>
    obtain ⟨k, v⟩ := e
    unfold cacheMatch at ih ⊢
    by_cases hk : key = k
    · subst hk
      exact ⟨v, lookup_cons_same key v rest⟩
    · rw [lookup_cons_other key k v rest hk]
      apply ih
      simpa [cacheKeys, hk] using h

theorem getCachedResponse_of_found (env : Env) (request : Request) (w : World)
    (cachedResponse : Response) (ho : env.openFails = false)
    (hl : lookupCached env request (currentCache w) = .ok (some cachedResponse))
    (hne : currentCache w ≠ []) :
    getCachedResponse env request w = (.ok cachedResponse, w) := by
  rw [getCachedResponse_eq, if_neg (by simp [ho]), hl]
  have hopen : cachesOpen w.caches CACHE_NAME = w.caches := cachesOpen_of_nonempty hne
  simp [hopen]

/-- C11: for a shell-asset request whose store lookup finds an entry (the exact match on
the request URL, or, when that misses and the URL contains `tailwindcss.com`, the entry of
the first stored key containing `tailwindcss.com`), `handleRequest` returns that entry
and the world is left as it was: no fetch is logged and the cache storage is unchanged. -/
theorem handleRequest_shell_hit (env : Env) (request : Request) (w : World)
    (hs : isAppShellResource request = true)
    (ho : env.openFails = false) (hm : env.matchFails request.url = false) :
    (∀ cachedResponse, cacheMatch (currentCache w) request.url = some cachedResponse →
      handleRequest env request w = (.ok cachedResponse, w)) ∧
    (cacheMatch (currentCache w) request.url = none →
      includes request.url "tailwindcss.com" = true → env.keysFails = false →
      ∀ key,
        (cacheKeys (currentCache w)).find? (fun k => includes k "tailwindcss.com") = some key →
        env.matchFails key = false →
        ∃ cachedResponse, cacheMatch (currentCache w) key = some cachedResponse ∧
          handleRequest env request w = (.ok cachedResponse, w)) := by
  constructor
  · intro cachedResponse hc
    have hne : currentCache w ≠ [] := by
      intro he
      rw [he] at hc
      cases hc
    have hl : lookupCached env request (currentCache w) = .ok (some cachedResponse) := by
      simp [lookupCached, hm, hc]
    rw [handleRequest_of_shell env request w hs,
      getCachedResponse_of_found env request w cachedResponse ho hl hne]
  · intro hc hv hk key hfind hkm
    have hmem : key ∈ cacheKeys (currentCache w) := List.mem_of_find?_eq_some hfind
    obtain ⟨cachedResponse, hr⟩ := cacheMatch_of_mem_keys (currentCache w) key hmem
    have hne : currentCache w ≠ [] := by
      intro he
      rw [he] at hmem
      simp [cacheKeys] at hmem
    have hl : lookupCached env request (currentCache w) = .ok (some cachedResponse) := by
      simp [lookupCached, hm, hc, hv, hk, scanKeys_eq, hfind, hkm, hr]
    refine ⟨cachedResponse, hr, ?_⟩
    rw [handleRequest_of_shell env request w hs,
      getCachedResponse_of_found env request w cachedResponse ho hl hne]

theorem handleRequest_shell_hit_witness :
    handleRequest offlineEnv indexRequest cachedIndexWorld = (.ok pageResponse, cachedIndexWorld) ∧
    ∃ cachedResponse,
      cacheMatch (currentCache cachedVendorWorld) "https://cdn.tailwindcss.com/3.4.0" =
        some cachedResponse ∧
      handleRequest onlineEnv vendorRequest cachedVendorWorld =
        (.ok cachedResponse, cachedVendorWorld) :=
  ⟨(handleRequest_shell_hit offlineEnv indexRequest cachedIndexWorld (by decide) rfl rfl).1
      pageResponse (by decide),
   (handleRequest_shell_hit onlineEnv vendorRequest cachedVendorWorld (by decide) rfl rfl).2
      (by decide) (by decide) rfl "https://cdn.tailwindcss.com/3.4.0" (by decide) rfl⟩

/-! ## Activation -/

theorem deleteOldCaches_caches (lenv : LifecycleEnv) (cacheNames : List String)
    (cs : CacheStorage) :
    (deleteOldCaches lenv cacheNames cs).2 =
      cs.filter (fun p =>
        p.1 == CACHE_NAME || lenv.deleteFails p.1 || !cacheNames.contains p.1) := by
  induction cacheNames generalizing cs with
  | nil => simp [deleteOldCaches]
  | cons cacheName rest ih =>
    unfold deleteOldCaches
    by_cases hc : cacheName = CACHE_NAME
    · rw [if_neg (by simp [hc]), ih]
      apply List.filter_congr
      intro p _
      by_cases hp : p.1 = cacheName
      · simp [hp, hc]
      · simp [hp]
    · rw [if_pos hc]
      cases hf : lenv.deleteFails cacheName
      · rw [if_neg (by simp), ih]
        unfold cachesDelete
        rw [List.filter_filter]
        apply List.filter_congr
        intro p _
        by_cases hp : p.1 = cacheName
        · simp [hp, hc, hf]
        · simp [hp]
      · rw [if_pos rfl]
        show (deleteOldCaches lenv rest cs).2 = _
        rw [ih]
        apply List.filter_congr
        intro p _
        by_cases hp : p.1 = cacheName
        · simp [hp, hf]
        · simp [hp]

theorem deleteOldCaches_no_rejection (lenv : LifecycleEnv) (cacheNames : List String)
    (cs : CacheStorage) (hd : ∀ name ∈ cacheNames, lenv.deleteFails name = false) :
    (deleteOldCaches lenv cacheNames cs).1 = none := by
  induction cacheNames generalizing cs with
  | nil => rfl
  | cons cacheName rest ih =>
    have hrest : ∀ name ∈ rest, lenv.deleteFails name = false :=
      fun name hn => hd name (List.mem_cons_of_mem _ hn)
    unfold deleteOldCaches
    by_cases hc : cacheName = CACHE_NAME
    · rw [if_neg (by simp [hc])]
      exact ih cs hrest
    · rw [if_pos hc, hd cacheName (List.mem_cons_self _ _), if_neg (by simp)]
      exact ih _ hrest

theorem activate_world (lenv : LifecycleEnv) (s : WorkerState) :
    (activate lenv s).2.world =
      if lenv.cachesKeysFails then s.world
      else
        ⟨s.world.caches.filter (fun p => p.1 == CACHE_NAME || lenv.deleteFails p.1),
          s.world.fetched⟩ := by
  have hfilter : (deleteOldCaches lenv (cachesKeys s.world.caches) s.world.caches).2 =
      s.world.caches.filter (fun p => p.1 == CACHE_NAME || lenv.deleteFails p.1) := by
    rw [deleteOldCaches_caches]
    apply List.filter_congr
    intro p hp
    have hmem : p.1 ∈ cachesKeys s.world.caches := List.mem_map_of_mem Prod.fst hp
    simp [hmem]
  unfold activate
  cases hk : lenv.cachesKeysFails
  · rw [if_neg (by simp), if_neg (by simp)]
    rcases hd : deleteOldCaches lenv (cachesKeys s.world.caches) s.world.caches with ⟨_ | e, cs⟩
    · rw [hd] at hfilter
      cases hcl : lenv.claimFails <;> simp [← hfilter]
    · rw [hd] at hfilter
      simp [← hfilter]
  · simp

theorem activate_result (lenv : LifecycleEnv) (s : WorkerState)
    (hk : lenv.cachesKeysFails = false)
    (hd : ∀ name ∈ cachesKeys s.world.caches, lenv.deleteFails name = false)
    (hc : lenv.claimFails = false) : (activate lenv s).1 = .ok () := by
  have hnone := deleteOldCaches_no_rejection lenv (cachesKeys s.world.caches) s.world.caches hd
  unfold activate
  rw [hk, if_neg (by simp)]
  rcases hdel : deleteOldCaches lenv (cachesKeys s.world.caches) s.world.caches with ⟨_ | e, cs⟩
  · simp [hc]
  · rw [hdel] at hnone
    cases hnone

theorem cacheOf_filter_name (cs : CacheStorage) (name : String) :
    cacheOf (cs.filter (fun p => p.1 == name)) name = cacheOf cs name := by
  unfold cacheOf
  congr 1
  induction cs with
  | nil => rfl
  | cons p rest ih =>
    obtain ⟨k, v⟩ := p
    by_cases hkn : k = name
    · subst hkn
      simp [List.filter_cons, lookup_cons_same]
    · have hne : name ≠ k := fun e => hkn e.symm
      rw [lookup_cons_other name k v rest hne]
      simpa [List.filter_cons, hkn] using ih

theorem filter_name_of_not_mem (cs : CacheStorage) (name : String)
    (h : name ∉ cachesKeys cs) : cs.filter (fun p => p.1 == name) = [] := by
  rw [List.filter_eq_nil_iff]
  intro p hp hpn
  apply h
  have hmem : p.1 ∈ cachesKeys cs := List.mem_map_of_mem Prod.fst hp
  have heq : p.1 = name := by simpa using hpn
  rw [← heq]
  exact hmem

theorem length_filter_name_le_one (cs : CacheStorage) (name : String)
    (h : (cachesKeys cs).Nodup) :
    (cachesKeys (cs.filter (fun p => p.1 == name))).length ≤ 1 := by
  induction cs with
  | nil => simp [cachesKeys]
  | cons p rest ih =>
    obtain ⟨k, v⟩ := p
    have hcons : cachesKeys ((k, v) :: rest) = k :: cachesKeys rest := rfl
    rw [hcons, List.nodup_cons] at h
    by_cases hkn : k = name
    · subst hkn
      have hnil := filter_name_of_not_mem rest k h.1
      simp [List.filter_cons, hnil, cachesKeys]
    · have := ih h.2
      simpa [List.filter_cons, hkn] using this

/-- C12: when `caches.keys()` and every `caches.delete` are accepted, after the activate
handler the cache storage holds exactly the caches named `CACHE_NAME`: a name is
enumerable afterwards if and only if it is `CACHE_NAME` and was enumerable before, the
current-version cache keeps its entries, and, cache names being unique, at most one
cache remains. The handler resolves when `clients.claim()` is accepted too. -/
theorem activate_keeps_current_only (lenv : LifecycleEnv) (s : WorkerState)
    (hk : lenv.cachesKeysFails = false) (hd : ∀ name, lenv.deleteFails name = false) :
    (activate lenv s).2.world.caches = s.world.caches.filter (fun p => p.1 == CACHE_NAME) ∧
    (∀ name, name ∈ cachesKeys (activate lenv s).2.world.caches ↔
      name = CACHE_NAME ∧ name ∈ cachesKeys s.world.caches) ∧
    cacheOf (activate lenv s).2.world.caches CACHE_NAME = cacheOf s.world.caches CACHE_NAME ∧
    ((cachesKeys s.world.caches).Nodup →
      (cachesKeys (activate lenv s).2.world.caches).length ≤ 1) ∧
    (lenv.claimFails = false → (activate lenv s).1 = .ok ()) := by
  have hcs : (activate lenv s).2.world.caches =
      s.world.caches.filter (fun p => p.1 == CACHE_NAME) := by
    rw [activate_world, hk, if_neg (by simp)]
    show s.world.caches.filter _ = _
    apply List.filter_congr
    intro p _
    simp [hd p.1]
  refine ⟨hcs, ?_, ?_, ?_, ?_⟩
  · intro name
    rw [hcs]
    unfold cachesKeys
    simp only [List.mem_map, List.mem_filter]
    constructor
    · rintro ⟨p, ⟨hp, hpn⟩, rfl⟩
      have heq : p.1 = CACHE_NAME := by simpa using hpn
      exact ⟨heq, p, hp, rfl⟩
    · rintro ⟨hn, p, hp, rfl⟩
      exact ⟨p, ⟨hp, by simp [hn]⟩, rfl⟩
  · rw [hcs, cacheOf_filter_name]
  · intro hnodup
    rw [hcs]
    exact length_filter_name_le_one _ _ hnodup
  · intro hc
    exact activate_result lenv s hk (fun name _ => hd name) hc

theorem activate_keeps_current_only_witness :
    (activate calmLifecycleEnv twoVersionsState).2.world.caches =
      [(CACHE_NAME, [("https://app.example/index.html", pageResponse)])] ∧
    (activate calmLifecycleEnv twoVersionsState).1 = .ok () :=
  ⟨(activate_keeps_current_only calmLifecycleEnv twoVersionsState rfl (fun _ => rfl)).1,
   (activate_keeps_current_only calmLifecycleEnv twoVersionsState rfl (fun _ => rfl)).2.2.2.2
      rfl⟩

theorem activate_world_of_all_kept (lenv : LifecycleEnv) (s : WorkerState)
    (h : ∀ p ∈ s.world.caches, (p.1 == CACHE_NAME || lenv.deleteFails p.1) = true) :
    (activate lenv s).2.world = s.world := by
  rw [activate_world]
  cases hk : lenv.cachesKeysFails
  · rw [if_neg (by simp)]
    have hf : s.world.caches.filter (fun p => p.1 == CACHE_NAME || lenv.deleteFails p.1) =
        s.world.caches := List.filter_eq_self.2 h
    rw [hf]
  · rfl

/-- C13: on the stores, the activate handler is idempotent. Run twice under the same
environment it leaves the world of one run; a run after one whose enumeration and
deletions were accepted changes nothing, whatever rejects in it; and a run on a storage
without a stale version (every cache is named `CACHE_NAME`) changes nothing. -/
theorem activate_idempotent (lenv : LifecycleEnv) (s : WorkerState) :
    (activate lenv (activate lenv s).2).2.world = (activate lenv s).2.world ∧
    (lenv.cachesKeysFails = false → (∀ name, lenv.deleteFails name = false) →
      ∀ lenv2, (activate lenv2 (activate lenv s).2).2.world = (activate lenv s).2.world) ∧
    ((∀ name ∈ cachesKeys s.world.caches, name = CACHE_NAME) →
      (activate lenv s).2.world = s.world) := by
  refine ⟨?_, ?_, ?_⟩
  · cases hk : lenv.cachesKeysFails
    · apply activate_world_of_all_kept
      intro p hp
      rw [activate_world, hk, if_neg (by simp)] at hp
      exact (List.mem_filter.1 hp).2
    · rw [activate_world lenv (activate lenv s).2, hk, if_pos rfl]
  · intro hk hd lenv2
    apply activate_world_of_all_kept
    intro p hp
    rw [activate_world, hk, if_neg (by simp)] at hp
    have := (List.mem_filter.1 hp).2
    simp [hd p.1] at this
    simp [this]
  · intro hall
    apply activate_world_of_all_kept
    intro p hp
    have hmem : p.1 ∈ cachesKeys s.world.caches := List.mem_map_of_mem Prod.fst hp
    simp [hall p.1 hmem]

theorem activate_idempotent_witness :
    (activate calmLifecycleEnv (activate calmLifecycleEnv twoVersionsState).2).2.world =
      (activate calmLifecycleEnv twoVersionsState).2.world ∧
    (activate calmLifecycleEnv currentVersionState).2.world = currentVersionState.world :=
  ⟨(activate_idempotent calmLifecycleEnv twoVersionsState).2.1 rfl (fun _ => rfl)
      calmLifecycleEnv,
   (activate_idempotent calmLifecycleEnv currentVersionState).2.2 (by decide)⟩

/-! ## Installation -/

theorem addAccepted_iff (env : Env) (url : String) :
    addAccepted env url = true ↔
      ∃ response, env.fetch url = some response ∧ response.ok = true ∧
        env.putFails url = false := by
  unfold addAccepted
  cases hf : env.fetch url with
  | none => simp
  | some r => simp

theorem cacheAdd_ok_iff (env : Env) (url : String) (cache : Cache) :
    (cacheAdd env url cache).1 = .ok () ↔ addAccepted env url = true := by
  unfold cacheAdd addAccepted
  cases hf : env.fetch url with
  | none => simp
  | some r => cases hok : r.ok <;> cases hp : env.putFails url <;> simp [hok, hp]

theorem cacheAdd_cache (env : Env) (url : String) (cache : Cache) :
    (cacheAdd env url cache).2 =
      match env.fetch url with
      | some response => if addAccepted env url then cachePut cache url response else cache
      | none => cache := by
  unfold cacheAdd addAccepted
  cases hf : env.fetch url with
  | none => rfl
  | some r => cases hok : r.ok <;> cases hp : env.putFails url <;> simp [hok, hp]

theorem cacheResources_step (env : Env) (origin resource : String) (rest : List String)
    (cache : Cache) (fetched : List String) :
    cacheResources env origin (resource :: rest) cache fetched =
      cacheResources env origin rest (cacheAdd env (resolveUrl origin resource) cache).2
        (fetched ++ [resolveUrl origin resource]) := by
  rcases h : cacheAdd env (resolveUrl origin resource) cache with ⟨_ | _, cache1⟩ <;>
    simp [cacheResources, h]

theorem cacheResources_match (env : Env) (origin : String) (resources : List String)
    (cache : Cache) (fetched : List String) (url : String) :
    cacheMatch (cacheResources env origin resources cache fetched).1 url =
      if url ∈ resources.map (resolveUrl origin) ∧ addAccepted env url = true then
        env.fetch url
      else cacheMatch cache url := by
  induction resources generalizing cache fetched with
  | nil => simp [cacheResources]
  | cons resource rest ih =>
    rw [cacheResources_step, ih, cacheAdd_cache]
    by_cases hu : url = resolveUrl origin resource
    · subst hu
      cases hf : env.fetch (resolveUrl origin resource) with
      | none => simp [addAccepted, hf]
      | some r =>
        cases ha : addAccepted env (resolveUrl origin resource)
        · simp
        · simp [cacheMatch_cachePut_same]
    · have hother : ∀ c : Cache,
          cacheMatch (match env.fetch (resolveUrl origin resource) with
            | some response =>
              if addAccepted env (resolveUrl origin resource) then
                cachePut c (resolveUrl origin resource) response
              else c
            | none => c) url = cacheMatch c url := by
        intro c
        cases hf : env.fetch (resolveUrl origin resource) with
        | none => rfl
        | some r =>
          cases ha : addAccepted env (resolveUrl origin resource)
          · simp
          · simp [cacheMatch_cachePut_other _ _ _ _ hu]
      rw [hother]
      simp [hu]

theorem install_currentCache (env : Env) (lenv : LifecycleEnv) (origin : String)
    (s : WorkerState) (ho : env.openFails = false) :
    currentCache (install env lenv origin s).2.world =
      (cacheResources env origin APP_SHELL_RESOURCES (currentCache s.world)
        s.world.fetched).1 := by
  unfold install installChain
  rw [ho, if_neg (by simp)]
  simp only [cacheOf_cachesOpen]
  cases hs : lenv.skipWaitingFails <;>
    simp [currentCache, cacheOf_cachesSet_same, cachesOpen_any]

/-- C14: the install handler resolves whatever rejects (any fetch, a put, `caches.open`,
`skipWaiting`); and when the store opens and the current-version cache starts empty,
after install the cache has an entry for a manifest entry if and only if its
`cache.add` was accepted (the fetch answered with a success status and the put was
accepted), and that entry is the fetched response. -/
theorem install_resolves_and_caches (env : Env) (lenv : LifecycleEnv) (origin : String)
    (s : WorkerState) :
    (install env lenv origin s).1 = .ok () ∧
    (env.openFails = false → currentCache s.world = [] →
      ∀ resource ∈ APP_SHELL_RESOURCES,
        ((cacheMatch (currentCache (install env lenv origin s).2.world)
            (resolveUrl origin resource)).isSome = true ↔
          ∃ response, env.fetch (resolveUrl origin resource) = some response ∧
            response.ok = true ∧ env.putFails (resolveUrl origin resource) = false) ∧
        ((∃ cache, (cacheAdd env (resolveUrl origin resource) cache).1 = .ok ()) →
          cacheMatch (currentCache (install env lenv origin s).2.world)
            (resolveUrl origin resource) = env.fetch (resolveUrl origin resource))) := by
  constructor
  · unfold install
    rcases installChain env lenv origin s with ⟨_ | u, s1⟩ <;> rfl
  · intro ho hempty resource hmem
    have hin : resolveUrl origin resource ∈ APP_SHELL_RESOURCES.map (resolveUrl origin) :=
      List.mem_map_of_mem _ hmem
    have hmatch : cacheMatch (currentCache (install env lenv origin s).2.world)
        (resolveUrl origin resource) =
          if addAccepted env (resolveUrl origin resource) = true then
            env.fetch (resolveUrl origin resource)
          else none := by
      rw [install_currentCache env lenv origin s ho, cacheResources_match, hempty]
      by_cases ha : addAccepted env (resolveUrl origin resource) = true
      · simp [hin, ha]
      · simp [ha, cacheMatch]
    constructor
    · rw [hmatch, ← addAccepted_iff]
      by_cases ha : addAccepted env (resolveUrl origin resource) = true
      · obtain ⟨r, hr, _, _⟩ := (addAccepted_iff env _).1 ha
        simp [ha, hr]
      · simp [ha]
    · rintro ⟨cache, hc⟩
      rw [hmatch, if_pos ((cacheAdd_ok_iff env _ cache).1 hc)]

theorem install_resolves_and_caches_witness :
    (install indexOnlyEnv calmLifecycleEnv "https://app.example" freshState).1 = .ok () ∧
    (install offlineBrokenStoreEnv calmLifecycleEnv "https://app.example" freshState).1 =
      .ok () ∧
    (cacheMatch
      (currentCache (install indexOnlyEnv calmLifecycleEnv "https://app.example" freshState).2.world)
      "https://app.example/index.html").isSome = true ∧
    ¬ (cacheMatch
      (currentCache (install indexOnlyEnv calmLifecycleEnv "https://app.example" freshState).2.world)
      "https://app.example/main.js").isSome = true :=
  ⟨(install_resolves_and_caches indexOnlyEnv calmLifecycleEnv "https://app.example"
      freshState).1,
   (install_resolves_and_caches offlineBrokenStoreEnv calmLifecycleEnv "https://app.example"
      freshState).1,
   (((install_resolves_and_caches indexOnlyEnv calmLifecycleEnv "https://app.example"
      freshState).2 rfl rfl "/index.html" (by decide)).1).2
        ⟨pageResponse, by decide, by decide, rfl⟩,
   fun h =>
    absurd ((((install_resolves_and_caches indexOnlyEnv calmLifecycleEnv "https://app.example"
      freshState).2 rfl rfl "/main.js" (by decide)).1).1 h)
      (by
        rintro ⟨response, hr, _, _⟩
        have hn : indexOnlyEnv.fetch (resolveUrl "https://app.example" "/main.js") = none := by
          decide
        rw [hn] at hr
        cases hr)⟩

/-! ## The manifest and the classifier -/

theorem isAppShellResource_of_mem_manifest (origin hostname : String) (request : Request)
    (h : request ∈ manifestRequests origin hostname) : isAppShellResource request = true := by
  have h1 : localResources.contains "/" = true := by decide
  have h2 : localResources.contains "/index.html" = true := by decide
  have h3 : localResources.contains "/main.js" = true := by decide
  have h4 : localResources.contains "/sw.js" = true := by decide
  have h5 : localResources.contains "/assets/manifest.json" = false := by decide
  have h6 : startsWith "/assets/manifest.json" "/assets/" = true := by decide
  have h7 : localResources.contains "/assets/imagenParaPlaceholder.jpg" = false := by decide
  have h8 : startsWith "/assets/imagenParaPlaceholder.jpg" "/assets/" = true := by decide
  have h9 : isAppShellResource stylesheetRequest = true := by decide
  simp only [manifestRequests, List.mem_cons, List.mem_singleton, List.not_mem_nil,
    or_false] at h
  rcases h with h | h | h | h | h | h | h <;> subst h
  · simp only [isAppShellResource, localRequest, h1, if_true]
  · simp only [isAppShellResource, localRequest, h2, if_true]
  · simp only [isAppShellResource, localRequest, h3, if_true]
  · simp only [isAppShellResource, localRequest, h4, if_true]
  · simp [isAppShellResource, localRequest, h5, h6]
  · simp [isAppShellResource, localRequest, h7, h8]
  · exact h9

/-- C15: the seven requests of the manifest entries, resolved against any origin, carry
the URLs that install caches, and for each of them `isAppShellResource` is true, its
class is `ShellAsset`, and `handleRequest` answers it through `getCachedResponse`. -/
theorem manifest_entries_are_shell (origin hostname : String) :
    (manifestRequests origin hostname).map (fun request => request.url) =
      APP_SHELL_RESOURCES.map (resolveUrl origin) ∧
    (manifestRequests origin hostname).length = 7 ∧
    ∀ request ∈ manifestRequests origin hostname,
      isAppShellResource request = true ∧
      classify request = .ShellAsset ∧
      ∀ env w, handleRequest env request w =
        match getCachedResponse env request w with
        | (.ok response, w1) => (.ok response, w1)
        | (.error _, w1) => (.ok emptyResponse, w1) := by
  refine ⟨?_, rfl, ?_⟩
  · have r1 : startsWith "/" "/" = true := by decide
    have r2 : startsWith "/index.html" "/" = true := by decide
    have r3 : startsWith "/main.js" "/" = true := by decide
    have r4 : startsWith "/sw.js" "/" = true := by decide
    have r5 : startsWith "/assets/manifest.json" "/" = true := by decide
    have r6 : startsWith "/assets/imagenParaPlaceholder.jpg" "/" = true := by decide
    have r7 : startsWith "https://cdn.jsdelivr.net/npm/@tailwindcss/browser@4" "/" = false := by
      decide
    simp [manifestRequests, APP_SHELL_RESOURCES, resolveUrl, localRequest, stylesheetRequest,
      r1, r2, r3, r4, r5, r6, r7]
  · intro request hmem
    have hs := isAppShellResource_of_mem_manifest origin hostname request hmem
    exact ⟨hs, (classify_shell_iff request).2 hs,
      fun env w => handleRequest_of_shell env request w hs⟩

theorem manifest_entries_are_shell_witness :
    isAppShellResource (localRequest "https://app.example" "app.example" "/sw.js") = true ∧
    isAppShellResource stylesheetRequest = true :=
  ⟨((manifest_entries_are_shell "https://app.example" "app.example").2.2
      (localRequest "https://app.example" "app.example" "/sw.js") (by decide)).1,
   ((manifest_entries_are_shell "https://app.example" "app.example").2.2
      stylesheetRequest (by decide)).1⟩

end CocktailSW
